import Mathlib

/-!
Verification development for the nil.js message envelope, deterministic
addressing and submission/confirmation subsystem.

Bytes are modelled as natural numbers below 256 in lists; machine
integers are Nat with explicit reductions modulo powers of two where
overflow matters; fallible operations return Except.
-/

namespace NilJs

/-- Little-endian byte rendering of a natural number into a fixed width. -/
def toLE : Nat → Nat → List Nat
  | 0, _ => []
  | w + 1, n => n % 256 :: toLE w (n / 256)

/-- Little-endian byte decoding, the left inverse of toLE up to the width. -/
def fromLE : List Nat → Nat
  | [] => 0
  | b :: bs => b + 256 * fromLE bs

theorem length_toLE (w : Nat) : ∀ n : Nat, (toLE w n).length = w := by
  induction w with
  | zero => intro n; rfl
  | succ w ih => intro n; simp [toLE, ih]

theorem fromLE_toLE (w : Nat) : ∀ n : Nat, fromLE (toLE w n) = n % 256 ^ w := by
  induction w with
  | zero => intro n; simp [toLE, fromLE, Nat.mod_one]
  | succ w ih =>
    intro n
    rw [pow_succ, mul_comm, Nat.mod_mul]
    simp [toLE, fromLE, ih]

/-- Big-endian two-byte rendering of a shard identifier, the fixed leading
bytes of an address. -/
def shardIdBytes (shardId : Nat) : List Nat :=
  [shardId / 256 % 256, shardId % 256]

/-- Modelled from the spec: getShardIdFromAddress is imported by the Faucet
from utils/address.js, which is absent from src; the spec states that the
shard identifier is embedded in the fixed leading bytes of the 20-byte
address (two bytes wide, as witnessed by the faucet address
0x0001...FA00CE7 living on shard 1), so the extractor reads the leading
two bytes big-endian. -/
def getShardIdFromAddress (addr : List Nat) : Nat :=
  match addr with
  | b0 :: b1 :: _ => b0 * 256 + b1
  | _ => 0

/-- Modelled from the spec: assertIsValidShardId is imported from the
package index, which is absent from src; the spec says derivation fails
with InvalidShardId when the shard id is outside the configured range,
and the two-byte shard field bounds that range by 2 to the 16. -/
def assertIsValidShardId (shardId : Nat) : Bool :=
  shardId < 65536

/-- Modelled from the spec: deriveAddress is absent from src; per the spec
it is a pure function producing a 20-byte address as a cryptographic
digest of (shardId, publicKey, salt, initCode) truncated to the address
width, with the shard id embedded in the fixed leading bytes. The digest
is a parameter, since the core treats it as an opaque cryptographic
primitive. -/
def deriveAddress (digest : List Nat → List Nat) (publicKey : List Nat)
    (shardId : Nat) (salt : Nat) (initCode : List Nat) : List Nat :=
  shardIdBytes shardId ++
    List.take 18 (digest (shardIdBytes shardId ++ publicKey ++ toLE 32 salt ++ initCode))

/-- Modelled from the spec: WalletV1.calculateWalletAddress is absent from
src; it is the address derivation applied to the wallet parameters, with
the wallet init code fixed by the library (modelled as the empty code). -/
def calculateWalletAddress (digest : List Nat → List Nat) (pubKey : List Nat)
    (shardId : Nat) (salt : Nat) : List Nat :=
  deriveAddress digest pubKey shardId salt []

theorem getShardIdFromAddress_shardIdBytes (shardId : Nat) (h : shardId < 65536)
    (rest : List Nat) :
    getShardIdFromAddress (shardIdBytes shardId ++ rest) = shardId := by
  have hdiv : shardId / 256 < 256 := by omega
  simp only [shardIdBytes, List.cons_append, getShardIdFromAddress]
  rw [Nat.mod_eq_of_lt hdiv]
  omega

/-- Claim C1: for every valid input triple, address derivation is
deterministic, meaning byte-identical inputs give byte-identical
addresses, and the shard identifier embedded in the leading bytes of the
derived address equals the shardId argument; the same holds for the
wallet address computation. -/
theorem deriveAddress_deterministic_shard_embedded
    (digest : List Nat → List Nat) (pk pk2 : List Nat) (shardId : Nat)
    (salt salt2 : Nat) (initCode initCode2 : List Nat)
    (h : shardId < 65536) (hpk : pk2 = pk) (hsalt : salt2 = salt)
    (hcode : initCode2 = initCode) :
    deriveAddress digest pk2 shardId salt2 initCode2
        = deriveAddress digest pk shardId salt initCode
    ∧ getShardIdFromAddress (deriveAddress digest pk shardId salt initCode) = shardId
    ∧ getShardIdFromAddress (calculateWalletAddress digest pk shardId salt) = shardId := by
  subst hpk hsalt hcode
  refine ⟨rfl, ?_, ?_⟩
  · exact getShardIdFromAddress_shardIdBytes shardId h _
  · exact getShardIdFromAddress_shardIdBytes shardId h _

/-- Claim C1 witness: the theorem applied at a concrete digest, public key,
shard id, salt and init code. -/
theorem deriveAddress_deterministic_shard_embedded_witness :
    deriveAddress (fun _ => List.replicate 18 0) [1, 2] 1 100 []
        = deriveAddress (fun _ => List.replicate 18 0) [1, 2] 1 100 []
    ∧ getShardIdFromAddress
        (deriveAddress (fun _ => List.replicate 18 0) [1, 2] 1 100 []) = 1
    ∧ getShardIdFromAddress
        (calculateWalletAddress (fun _ => List.replicate 18 0) [1, 2] 1 100) = 1 :=
  deriveAddress_deterministic_shard_embedded
    (fun _ => List.replicate 18 0) [1, 2] [1, 2] 1 100 100 [] []
    (by decide) rfl rfl rfl

/-- One byte for a boolean flag. -/
def boolByte : Bool → Nat
  | false => 0
  | true => 1

/-- A variable-length field rendered with its length ahead of it, keeping
the serialization decodable. -/
def framed (bs : List Nat) : List Nat :=
  toLE 8 bs.length ++ bs

/-- The message envelope of the library: an external message before or
after signing, as constructed by the Faucet and the wallet. The source
field named to is rendered dst here, since Lean reserves that word. -/
structure ExternalMessageEnvelope where
  isDeploy : Bool
  dst : List Nat
  chainId : Nat
  seqno : Nat
  data : List Nat
  authData : List Nat
deriving DecidableEq, Repr

/-- Modelled from the spec: ExternalMessageEnvelope.encode lives in
encoding/externalMessage.js, absent from src; the spec describes it as a
deterministic canonical serialization of all fields in a fixed field
order. It is total: the Faucet code in src encodes envelopes with empty
authData and non-empty data, submits the result and returns the hash,
and the integration tests in src expect that path to succeed, so the
failure condition the spec attaches to encode cannot hold on the code.
The seqno and chainId fields are 64-bit machine integers, reduced
modulo 2 to the 64 by the fixed-width rendering. -/
def ExternalMessageEnvelope.encode (m : ExternalMessageEnvelope) : List Nat :=
  toLE 8 m.seqno ++
    (toLE 8 m.chainId ++
      (boolByte m.isDeploy ::
        (framed m.dst ++ (framed m.data ++ framed m.authData))))

/-- Errors the spec assigns to envelope encoding. -/
inductive EncodeError where
  | MissingSignature
deriving DecidableEq, Repr

/-- Modelled from the spec: the encode contract exactly as the spec words
it, for comparison with the code path; it fails with MissingSignature
when the envelope is a deploy or carries non-empty data while authData
is empty, and otherwise returns the canonical serialization. -/
def encodeSpec (m : ExternalMessageEnvelope) : Except EncodeError (List Nat) :=
  if (m.isDeploy || !m.data.isEmpty) && m.authData.isEmpty then
    Except.error EncodeError.MissingSignature
  else
    Except.ok m.encode

/-- Modelled from the spec: the message hash is the digest over the
encoding excluding authData; the digest is modelled as the identity on
that reduced encoding, an injective stand-in for the cryptographic
hash. -/
def ExternalMessageEnvelope.hash (m : ExternalMessageEnvelope) : List Nat :=
  ExternalMessageEnvelope.encode { m with authData := [] }

/-- Reads the seqno field back out of an encoded envelope. -/
def decodeSeqno (bs : List Nat) : Nat :=
  fromLE (List.take 8 bs)

theorem decodeSeqno_encode (m : ExternalMessageEnvelope) :
    decodeSeqno m.encode = m.seqno % 2 ^ 64 := by
  have htake := List.take_left (toLE 8 m.seqno)
      (toLE 8 m.chainId ++
        (boolByte m.isDeploy :: (framed m.dst ++ (framed m.data ++ framed m.authData))))
  rw [length_toLE] at htake
  have h256 : (256 : Nat) ^ 8 = 2 ^ 64 := by norm_num
  rw [decodeSeqno, ExternalMessageEnvelope.encode, htake, fromLE_toLE, h256]

/-- The constant faucet contract address 0x000100000000000000000000000000000FA00CE7
from src/unnamed/part_000, as bytes. -/
def faucetAddress : List Nat :=
  [0, 1, 0, 0, 0, 0, 0, 0, 0, 0, 0, 0, 0, 0, 0, 0, 15, 160, 12, 231]

/-- Modelled from the spec: the ABI codec encodeCall is an external
collaborator whose output the core treats as opaque bytes; the calldata
of a withdrawTo call is modelled as a four-byte function selector
followed by the two argument words, so it is never empty. -/
def encodeWithdrawCalldata (address : List Nat) (value : Nat) : List Nat :=
  119 :: 100 :: 114 :: 119 :: (toLE 32 (fromLE address) ++ toLE 32 value)

/-- The envelope built by the Faucet for one withdrawal submission, from
src/unnamed/part_000: not a deploy, addressed to the faucet contract,
carrying the withdrawTo calldata and empty authData. -/
def faucetEnvelope (address : List Nat) (value seqno chainId : Nat) :
    ExternalMessageEnvelope :=
  { isDeploy := false
    dst := faucetAddress
    chainId := chainId
    seqno := seqno
    data := encodeWithdrawCalldata address value
    authData := [] }

/-- Faucet.withdrawTo from src/unnamed/part_000 lines 194 to 214, with the
two RPC reads (getMessageCount and chainId) abstracted into the seqno and
chainId arguments: it builds the withdrawal envelope, encodes it, submits
the encoding via sendRawMessage, and returns the message hash. The result
is the returned hash paired with the list of submitted raw messages. -/
def withdrawTo (address : List Nat) (value seqno chainId : Nat) :
    List Nat × List (List Nat) :=
  let message := faucetEnvelope address value seqno chainId
  (message.hash, [message.encode])

/-- A receipt of one on-chain hop; the claims only use its success flag. -/
structure Receipt where
  success : Bool
deriving DecidableEq, Repr

/-- What one iteration of the retry loop observes from the outside world:
the paired seqno and chainId fetch can reject; after a successful fetch
the submission can reject; after a successful submission the receipt
polling can reject; otherwise the attempt completes with the receipt
chain collected before the per-attempt deadline, the empty chain meaning
the deadline passed with nothing confirmed. -/
inductive AttemptSpec where
  | fetchErr (e : Nat)
  | submitErr (seqno chainId e : Nat)
  | waitErr (seqno chainId e : Nat)
  | completes (seqno chainId : Nat) (receipts : List Receipt)
deriving DecidableEq, Repr

/-- How a run of withdrawToWithRetry ends: returning the message hash of a
successful attempt, throwing the generic failed-to-withdraw error after
the loop exits, or rethrowing an underlying error caught on the last
permitted attempt. -/
inductive RetryOutcome where
  | ok (hash : List Nat)
  | exhaustedGeneric
  | thrown (e : Nat)
deriving DecidableEq, Repr

/-- Observable side effects of a run: how many seqno-and-chainId fetches
were issued, the raw messages passed to sendRawMessage in order, and how
many backoff sleeps were taken. -/
structure FaucetTrace where
  fetches : Nat
  submissions : List (List Nat)
  sleeps : Nat
deriving DecidableEq, Repr

/-- The seqno an attempt fetched before failing or completing. -/
def attemptSeqno : AttemptSpec → Nat
  | AttemptSpec.fetchErr _ => 0
  | AttemptSpec.submitErr s _ _ => s
  | AttemptSpec.waitErr s _ _ => s
  | AttemptSpec.completes s _ _ => s

/-- The chainId an attempt fetched before failing or completing. -/
def attemptChainId : AttemptSpec → Nat
  | AttemptSpec.fetchErr _ => 0
  | AttemptSpec.submitErr _ c _ => c
  | AttemptSpec.waitErr _ c _ => c
  | AttemptSpec.completes _ c _ => c

/-- The envelope an attempt builds from its own fetched seqno and chainId. -/
def attemptEnvelope (address : List Nat) (value : Nat) (a : AttemptSpec) :
    ExternalMessageEnvelope :=
  faucetEnvelope address value (attemptSeqno a) (attemptChainId a)

/-- The error an attempt raises, when it raises one. -/
def attemptErr : AttemptSpec → Option Nat
  | AttemptSpec.fetchErr e => some e
  | AttemptSpec.submitErr _ _ e => some e
  | AttemptSpec.waitErr _ _ e => some e
  | AttemptSpec.completes _ _ _ => none

/-- Whether an attempt completes with a receipt chain, as opposed to
raising an error. -/
def isCompletes : AttemptSpec → Bool
  | AttemptSpec.completes _ _ _ => true
  | _ => false

/-- Whether an attempt completes with a non-empty receipt chain in which
every receipt reports success, which is the condition under which the
loop returns the hash. -/
def attemptGood : AttemptSpec → Bool
  | AttemptSpec.completes _ _ rs => !rs.isEmpty && rs.all (fun r => r.success)
  | _ => false

/-- The loop body of Faucet.withdrawToWithRetry from src/unnamed/part_000
lines 222 to 267, one constructor case per way an iteration can go. The
fuel argument is the number of loop iterations still permitted, so the
source guard currentRetry++ < retry holds exactly when fuel is positive,
and the source check currentRetry >= retry inside the catch block holds
exactly when the decremented fuel is zero. Each iteration fetches a
fresh seqno and chainId, builds and encodes a fresh envelope, submits
it, and classifies the receipt chain; a caught error sleeps one backoff
interval and rethrows when no attempts remain. When the loop exits, the
generic failed-to-withdraw error is thrown. -/
def withdrawGo (specs : Nat → AttemptSpec) (address : List Nat) (value : Nat) :
    Nat → Nat → FaucetTrace → RetryOutcome × FaucetTrace
  | _, 0, tr => (RetryOutcome.exhaustedGeneric, tr)
  | cur, fuel + 1, tr =>
    match specs cur with
    | AttemptSpec.fetchErr e =>
      let tr1 : FaucetTrace :=
        { fetches := tr.fetches + 1, submissions := tr.submissions,
          sleeps := tr.sleeps + 1 }
      if fuel = 0 then (RetryOutcome.thrown e, tr1)
      else withdrawGo specs address value (cur + 1) fuel tr1
    | AttemptSpec.submitErr s c e =>
      let tr1 : FaucetTrace :=
        { fetches := tr.fetches + 1,
          submissions := tr.submissions ++ [(faucetEnvelope address value s c).encode],
          sleeps := tr.sleeps + 1 }
      if fuel = 0 then (RetryOutcome.thrown e, tr1)
      else withdrawGo specs address value (cur + 1) fuel tr1
    | AttemptSpec.waitErr s c e =>
      let tr1 : FaucetTrace :=
        { fetches := tr.fetches + 1,
          submissions := tr.submissions ++ [(faucetEnvelope address value s c).encode],
          sleeps := tr.sleeps + 1 }
      if fuel = 0 then (RetryOutcome.thrown e, tr1)
      else withdrawGo specs address value (cur + 1) fuel tr1
    | AttemptSpec.completes s c rs =>
      let message := faucetEnvelope address value s c
      let tr1 : FaucetTrace :=
        { fetches := tr.fetches + 1,
          submissions := tr.submissions ++ [message.encode],
          sleeps := tr.sleeps }
      if rs = [] then withdrawGo specs address value (cur + 1) fuel tr1
      else if rs.any (fun r => !r.success) then
        withdrawGo specs address value (cur + 1) fuel tr1
      else (RetryOutcome.ok message.hash, tr1)

/-- Faucet.withdrawToWithRetry from src/unnamed/part_000 lines 216 to 267:
runs the loop with currentRetry starting at zero. The retry budget is an
Int since the source takes an arbitrary number there, and a nonpositive
budget admits no iteration. -/
def withdrawToWithRetry (specs : Nat → AttemptSpec) (address : List Nat)
    (value : Nat) (retry : Int) : RetryOutcome × FaucetTrace :=
  withdrawGo specs address value 0 retry.toNat ⟨0, [], 0⟩

theorem withdrawGo_zero (specs : Nat → AttemptSpec) (address : List Nat)
    (value cur : Nat) (tr : FaucetTrace) :
    withdrawGo specs address value cur 0 tr = (RetryOutcome.exhaustedGeneric, tr) :=
  rfl

theorem withdrawGo_completes (specs : Nat → AttemptSpec) (address : List Nat)
    (value cur fuel : Nat) (tr : FaucetTrace) (s c : Nat) (rs : List Receipt)
    (hs : specs cur = AttemptSpec.completes s c rs) :
    withdrawGo specs address value cur (fuel + 1) tr =
      (let message := faucetEnvelope address value s c
       let tr1 : FaucetTrace :=
        { fetches := tr.fetches + 1,
          submissions := tr.submissions ++ [message.encode],
          sleeps := tr.sleeps }
       if rs = [] then withdrawGo specs address value (cur + 1) fuel tr1
       else if rs.any (fun r => !r.success) then
         withdrawGo specs address value (cur + 1) fuel tr1
       else (RetryOutcome.ok message.hash, tr1)) := by
  conv_lhs => rw [withdrawGo]
  rw [hs]

theorem withdrawGo_fetchErr (specs : Nat → AttemptSpec) (address : List Nat)
    (value cur fuel : Nat) (tr : FaucetTrace) (e : Nat)
    (hs : specs cur = AttemptSpec.fetchErr e) :
    withdrawGo specs address value cur (fuel + 1) tr =
      (let tr1 : FaucetTrace :=
        { fetches := tr.fetches + 1, submissions := tr.submissions,
          sleeps := tr.sleeps + 1 }
       if fuel = 0 then (RetryOutcome.thrown e, tr1)
       else withdrawGo specs address value (cur + 1) fuel tr1) := by
  conv_lhs => rw [withdrawGo]
  rw [hs]

theorem withdrawGo_submitErr (specs : Nat → AttemptSpec) (address : List Nat)
    (value cur fuel : Nat) (tr : FaucetTrace) (s c e : Nat)
    (hs : specs cur = AttemptSpec.submitErr s c e) :
    withdrawGo specs address value cur (fuel + 1) tr =
      (let tr1 : FaucetTrace :=
        { fetches := tr.fetches + 1,
          submissions := tr.submissions ++ [(faucetEnvelope address value s c).encode],
          sleeps := tr.sleeps + 1 }
       if fuel = 0 then (RetryOutcome.thrown e, tr1)
       else withdrawGo specs address value (cur + 1) fuel tr1) := by
  conv_lhs => rw [withdrawGo]
  rw [hs]

theorem withdrawGo_waitErr (specs : Nat → AttemptSpec) (address : List Nat)
    (value cur fuel : Nat) (tr : FaucetTrace) (s c e : Nat)
    (hs : specs cur = AttemptSpec.waitErr s c e) :
    withdrawGo specs address value cur (fuel + 1) tr =
      (let tr1 : FaucetTrace :=
        { fetches := tr.fetches + 1,
          submissions := tr.submissions ++ [(faucetEnvelope address value s c).encode],
          sleeps := tr.sleeps + 1 }
       if fuel = 0 then (RetryOutcome.thrown e, tr1)
       else withdrawGo specs address value (cur + 1) fuel tr1) := by
  conv_lhs => rw [withdrawGo]
  rw [hs]

/-- Claim C2 counterexample: the concrete envelope built by
Faucet.withdrawTo for a withdrawal of value 7 to address byte 5 at seqno
and chainId zero is not a deploy, has non-empty calldata and empty
authData, so the spec wording makes encode fail with MissingSignature on
it; yet the src code path encodes exactly this envelope, submits the
encoding and returns the hash, so encode succeeds there. -/
theorem faucet_unsigned_envelope_encodes :
    (faucetEnvelope [5] 7 0 0).isDeploy = false
    ∧ (faucetEnvelope [5] 7 0 0).data ≠ []
    ∧ (faucetEnvelope [5] 7 0 0).authData = []
    ∧ encodeSpec (faucetEnvelope [5] 7 0 0)
        = Except.error EncodeError.MissingSignature
    ∧ withdrawTo [5] 7 0 0
        = ((faucetEnvelope [5] 7 0 0).hash, [(faucetEnvelope [5] 7 0 0).encode]) := by
  refine ⟨rfl, ?_, rfl, rfl, rfl⟩
  simp [faucetEnvelope, encodeWithdrawCalldata]

/-- Claim C2 (amended): every envelope the Faucet builds in withdrawTo and
withdrawToWithRetry is not a deploy, carries non-empty calldata and
empty authData, and encode succeeds on it, the encoding being the raw
message submitted and the returned hash being the digest of that
envelope; encode does not fail with MissingSignature on such
envelopes. -/
theorem withdrawTo_encodes_unsigned_nonempty_data (address : List Nat)
    (value seqno chainId : Nat) :
    (faucetEnvelope address value seqno chainId).isDeploy = false
    ∧ (faucetEnvelope address value seqno chainId).data ≠ []
    ∧ (faucetEnvelope address value seqno chainId).authData = []
    ∧ (withdrawTo address value seqno chainId).snd
        = [(faucetEnvelope address value seqno chainId).encode]
    ∧ (withdrawTo address value seqno chainId).fst
        = (faucetEnvelope address value seqno chainId).hash := by
  refine ⟨rfl, ?_, rfl, rfl, rfl⟩
  simp [faucetEnvelope, encodeWithdrawCalldata]

/-- The raw messages the loop submits across a run of consecutive
attempts: each attempt encodes the envelope built from its own fetched
seqno and chainId. -/
def attemptEncodings (specs : Nat → AttemptSpec) (address : List Nat)
    (value : Nat) : Nat → Nat → List (List Nat)
  | _, 0 => []
  | cur, fuel + 1 =>
    (attemptEnvelope address value (specs cur)).encode ::
      attemptEncodings specs address value (cur + 1) fuel

theorem length_attemptEncodings (specs : Nat → AttemptSpec) (address : List Nat)
    (value : Nat) : ∀ fuel cur,
    (attemptEncodings specs address value cur fuel).length = fuel := by
  intro fuel
  induction fuel with
  | zero => intro cur; rfl
  | succ fuel ih => intro cur; simp [attemptEncodings, ih (cur + 1)]

theorem attemptEncodings_eq_map (specs : Nat → AttemptSpec) (address : List Nat)
    (value : Nat) : ∀ fuel cur,
    attemptEncodings specs address value cur fuel
      = (List.range fuel).map
          (fun i => (attemptEnvelope address value (specs (cur + i))).encode) := by
  intro fuel
  induction fuel with
  | zero => intro cur; rfl
  | succ fuel ih =>
    intro cur
    have hcons : attemptEncodings specs address value cur (fuel + 1)
        = (attemptEnvelope address value (specs cur)).encode ::
            attemptEncodings specs address value (cur + 1) fuel := rfl
    rw [hcons, ih (cur + 1), List.range_succ_eq_map, List.map_cons, List.map_map]
    congr 1
    apply List.map_congr_left
    intro a ha
    have hsh : cur + 1 + a = cur + (a + 1) := by omega
    simp [Function.comp, hsh]

theorem any_bang_success (rs : List Receipt) :
    (rs.any fun r => !r.success) = !(rs.all fun r => r.success) := by
  induction rs with
  | nil => rfl
  | cons r rs ih => simp [List.any_cons, List.all_cons, ih, Bool.not_and]

/-- A completing attempt that is not good takes one of the two continue
branches of the loop body. -/
theorem completes_not_good (s c : Nat) (rs : List Receipt)
    (hg : attemptGood (AttemptSpec.completes s c rs) = false) :
    rs = [] ∨ (rs.any fun r => !r.success) = true := by
  by_cases hrs : rs = []
  · exact Or.inl hrs
  · right
    have hemp : rs.isEmpty = false := by
      cases rs with
      | nil => exact absurd rfl hrs
      | cons a l => rfl
    rw [attemptGood, hemp] at hg
    simp only [Bool.not_false, Bool.true_and] at hg
    rw [any_bang_success, hg]
    rfl

/-- One failing-or-erroring iteration with budget remaining steps the loop
to the next attempt, bumping the trace by that iteration. -/
theorem withdrawGo_step_continue (specs : Nat → AttemptSpec) (address : List Nat)
    (value cur fuel : Nat) (tr : FaucetTrace)
    (hc : isCompletes (specs cur) = true) (hg : attemptGood (specs cur) = false) :
    withdrawGo specs address value cur (fuel + 1) tr
      = withdrawGo specs address value (cur + 1) fuel
          ⟨tr.fetches + 1,
           tr.submissions ++ [(attemptEnvelope address value (specs cur)).encode],
           tr.sleeps⟩ := by
  cases hs : specs cur with
  | fetchErr e => rw [hs] at hc; exact absurd hc (by simp [isCompletes])
  | submitErr s c e => rw [hs] at hc; exact absurd hc (by simp [isCompletes])
  | waitErr s c e => rw [hs] at hc; exact absurd hc (by simp [isCompletes])
  | completes s c rs =>
    rw [hs] at hg
    rw [withdrawGo_completes specs address value cur fuel tr s c rs hs]
    simp only [attemptEnvelope, attemptSeqno, attemptChainId]
    rcases completes_not_good s c rs hg with h1 | h1
    · rw [if_pos h1]
    · have hne : ¬rs = [] := by
        intro hh
        rw [hh] at h1
        simp at h1
      rw [if_neg hne, if_pos h1]

/-- When every permitted attempt completes with an empty chain or a chain
containing a failed receipt, the loop runs all of them, one submission
each, and ends in the generic exhaustion error. -/
theorem withdrawGo_all_failing (specs : Nat → AttemptSpec) (address : List Nat)
    (value : Nat) : ∀ (fuel cur : Nat) (tr : FaucetTrace),
    (∀ i, i < fuel →
      isCompletes (specs (cur + i)) = true ∧ attemptGood (specs (cur + i)) = false) →
    withdrawGo specs address value cur fuel tr
      = (RetryOutcome.exhaustedGeneric,
         ⟨tr.fetches + fuel,
          tr.submissions ++ attemptEncodings specs address value cur fuel,
          tr.sleeps⟩) := by
  intro fuel
  induction fuel with
  | zero =>
    intro cur tr h
    simp [withdrawGo_zero, attemptEncodings]
  | succ fuel ih =>
    intro cur tr h
    obtain ⟨hc, hg⟩ := h 0 (Nat.succ_pos fuel)
    rw [Nat.add_zero] at hc hg
    rw [withdrawGo_step_continue specs address value cur fuel tr hc hg]
    have hsub : ∀ i, i < fuel →
        isCompletes (specs (cur + 1 + i)) = true
        ∧ attemptGood (specs (cur + 1 + i)) = false := by
      intro i hi
      have := h (i + 1) (by omega)
      rwa [show cur + (i + 1) = cur + 1 + i by omega] at this
    rw [ih (cur + 1) _ hsub]
    show (RetryOutcome.exhaustedGeneric,
          ({ fetches := tr.fetches + 1 + fuel,
             submissions :=
               (tr.submissions ++ [(attemptEnvelope address value (specs cur)).encode])
                 ++ attemptEncodings specs address value (cur + 1) fuel,
             sleeps := tr.sleeps } : FaucetTrace))
        = (RetryOutcome.exhaustedGeneric,
           { fetches := tr.fetches + (fuel + 1),
             submissions := tr.submissions ++ attemptEncodings specs address value cur (fuel + 1),
             sleeps := tr.sleeps })
    rw [List.append_assoc, show tr.fetches + 1 + fuel = tr.fetches + (fuel + 1) by omega]
    rw [show attemptEncodings specs address value cur (fuel + 1)
          = (attemptEnvelope address value (specs cur)).encode ::
              attemptEncodings specs address value (cur + 1) fuel from rfl,
        List.singleton_append]

theorem withdrawToWithRetry_natCast (specs : Nat → AttemptSpec)
    (address : List Nat) (value n : Nat) :
    withdrawToWithRetry specs address value (n : Int)
      = withdrawGo specs address value 0 n ⟨0, [], 0⟩ :=
  rfl

/-- When the first k attempts complete with failing or empty receipt
chains and attempt k completes with a non-empty all-success chain, the
loop returns the hash of attempt k and stops after exactly k + 1
submissions. -/
theorem withdrawGo_first_good (specs : Nat → AttemptSpec) (address : List Nat)
    (value : Nat) : ∀ (k fuel cur : Nat) (tr : FaucetTrace), k < fuel →
    (∀ j, j < k →
      isCompletes (specs (cur + j)) = true ∧ attemptGood (specs (cur + j)) = false) →
    attemptGood (specs (cur + k)) = true →
    withdrawGo specs address value cur fuel tr
      = (RetryOutcome.ok ((attemptEnvelope address value (specs (cur + k))).hash),
         ⟨tr.fetches + (k + 1),
          tr.submissions ++ attemptEncodings specs address value cur (k + 1),
          tr.sleeps⟩) := by
  intro k
  induction k with
  | zero =>
    intro fuel cur tr hk hb hg
    simp only [Nat.add_zero] at hg ⊢
    obtain ⟨fuel0, rfl⟩ : ∃ f, fuel = f + 1 := ⟨fuel - 1, by omega⟩
    cases hs : specs cur with
    | fetchErr e => rw [hs] at hg; simp [attemptGood] at hg
    | submitErr s c e => rw [hs] at hg; simp [attemptGood] at hg
    | waitErr s c e => rw [hs] at hg; simp [attemptGood] at hg
    | completes s c rs =>
      rw [hs] at hg
      rw [withdrawGo_completes specs address value cur fuel0 tr s c rs hs]
      rw [attemptGood] at hg
      have hemp : rs.isEmpty = false := by
        cases h2 : rs.isEmpty
        · rfl
        · rw [h2] at hg; simp at hg
      have hall : (rs.all fun r => r.success) = true := by
        rw [hemp] at hg
        simpa using hg
      have hne : ¬rs = [] := by
        intro hh
        rw [hh] at hemp
        simp at hemp
      have hcond : ¬((rs.any fun r => !r.success) = true) := by
        rw [any_bang_success, hall]
        simp
      rw [if_neg hne, if_neg hcond]
      simp [attemptEncodings, attemptEnvelope, attemptSeqno, attemptChainId, hs]
  | succ k ih =>
    intro fuel cur tr hk hb hg
    obtain ⟨fuel0, rfl⟩ : ∃ f, fuel = f + 1 := ⟨fuel - 1, by omega⟩
    obtain ⟨hc0, hg0⟩ := hb 0 (Nat.succ_pos k)
    rw [Nat.add_zero] at hc0 hg0
    rw [withdrawGo_step_continue specs address value cur fuel0 tr hc0 hg0]
    have hb1 : ∀ j, j < k →
        isCompletes (specs (cur + 1 + j)) = true
        ∧ attemptGood (specs (cur + 1 + j)) = false := by
      intro j hj
      have := hb (j + 1) (by omega)
      rwa [show cur + (j + 1) = cur + 1 + j by omega] at this
    have hg1 : attemptGood (specs (cur + 1 + k)) = true := by
      rwa [show cur + (k + 1) = cur + 1 + k by omega] at hg
    rw [ih fuel0 (cur + 1) _ (by omega) hb1 hg1]
    show (RetryOutcome.ok ((attemptEnvelope address value (specs (cur + 1 + k))).hash),
          ({ fetches := tr.fetches + 1 + (k + 1),
             submissions :=
               (tr.submissions ++ [(attemptEnvelope address value (specs cur)).encode])
                 ++ attemptEncodings specs address value (cur + 1) (k + 1),
             sleeps := tr.sleeps } : FaucetTrace))
        = (RetryOutcome.ok ((attemptEnvelope address value (specs (cur + (k + 1)))).hash),
           { fetches := tr.fetches + (k + 1 + 1),
             submissions := tr.submissions ++ attemptEncodings specs address value cur (k + 1 + 1),
             sleeps := tr.sleeps })
    rw [show cur + 1 + k = cur + (k + 1) by omega,
        show tr.fetches + 1 + (k + 1) = tr.fetches + (k + 1 + 1) by omega,
        List.append_assoc,
        show attemptEncodings specs address value cur (k + 1 + 1)
          = (attemptEnvelope address value (specs cur)).encode ::
              attemptEncodings specs address value (cur + 1) (k + 1) from rfl,
        List.singleton_append]

/-- Claim C3 counterexample: with a retry budget of one, an attempt whose
seqno fetch rejects with error 7 exhausts the budget, and the error the
call raises is the underlying error 7 itself, not the generic
retry-exhaustion error; so the generic retry-exhaustion error is not the
only error raised after exhausting the retry budget. -/
theorem retry_exhaustion_rethrows_underlying_error :
    (withdrawToWithRetry (fun _ => AttemptSpec.fetchErr 7) [5] 7 (1 : Int)).fst
        = RetryOutcome.thrown 7
    ∧ RetryOutcome.thrown 7 ≠ RetryOutcome.exhaustedGeneric := by
  exact ⟨rfl, by simp⟩

/-- Claim C3 (amended): for every positive retry budget n, if every
attempt observes a receipt chain that is empty at the deadline or
contains a receipt with success false, then exactly n submissions are
made and the call fails with the generic failed-to-withdraw error, which
wraps no cause; when the budget is instead exhausted by an underlying
error on the last attempt, that error propagates, so the generic error
is not the only post-exhaustion failure. -/
theorem withdrawToWithRetry_exhausts_after_n_failing_attempts
    (specs : Nat → AttemptSpec) (address : List Nat) (value n : Nat)
    (hn : 0 < n)
    (hfail : ∀ i, i < n →
      isCompletes (specs i) = true ∧ attemptGood (specs i) = false) :
    (withdrawToWithRetry specs address value (n : Int)).fst
        = RetryOutcome.exhaustedGeneric
    ∧ (withdrawToWithRetry specs address value (n : Int)).snd.submissions.length = n := by
  have hb0 : ∀ i, i < n →
      isCompletes (specs (0 + i)) = true ∧ attemptGood (specs (0 + i)) = false := by
    intro i hi
    rw [Nat.zero_add]
    exact hfail i hi
  rw [withdrawToWithRetry_natCast,
      withdrawGo_all_failing specs address value n 0 ⟨0, [], 0⟩ hb0]
  exact ⟨rfl, by simp [length_attemptEncodings]⟩

/-- Claim C3 witness: the amended theorem applied with a budget of two
and a service that always reports one failed receipt. -/
theorem withdrawToWithRetry_exhausts_witness :
    (withdrawToWithRetry (fun _ => AttemptSpec.completes 0 0 [⟨false⟩]) [5] 7 (2 : Int)).fst
        = RetryOutcome.exhaustedGeneric
    ∧ (withdrawToWithRetry (fun _ => AttemptSpec.completes 0 0 [⟨false⟩]) [5] 7
        (2 : Int)).snd.submissions.length = 2 :=
  withdrawToWithRetry_exhausts_after_n_failing_attempts
    (fun _ => AttemptSpec.completes 0 0 [⟨false⟩]) [5] 7 2
    (by decide) (fun i _ => ⟨rfl, rfl⟩)

/-- Claim C4: withdrawToWithRetry returns the message hash of the first
attempt whose collected receipt chain is non-empty with every receipt
reporting success, and stops retrying there: exactly that attempt count
of submissions is made; earlier attempts completing with an empty chain
or a chain containing a failure do not return. -/
theorem withdrawToWithRetry_returns_first_success (specs : Nat → AttemptSpec)
    (address : List Nat) (value n k s c : Nat) (rs : List Receipt)
    (hk : k < n)
    (hbefore : ∀ j, j < k →
      isCompletes (specs j) = true ∧ attemptGood (specs j) = false)
    (hs : specs k = AttemptSpec.completes s c rs)
    (hne : rs ≠ []) (hall : (rs.all fun r => r.success) = true) :
    (withdrawToWithRetry specs address value (n : Int)).fst
        = RetryOutcome.ok ((faucetEnvelope address value s c).hash)
    ∧ (withdrawToWithRetry specs address value (n : Int)).snd.submissions.length
        = k + 1 := by
  have hemp : rs.isEmpty = false := by
    cases rs with
    | nil => exact absurd rfl hne
    | cons a l => rfl
  have hg : attemptGood (specs (0 + k)) = true := by
    rw [Nat.zero_add, hs, attemptGood, hemp, hall]
    rfl
  have hb0 : ∀ j, j < k →
      isCompletes (specs (0 + j)) = true ∧ attemptGood (specs (0 + j)) = false := by
    intro j hj
    rw [Nat.zero_add]
    exact hbefore j hj
  rw [withdrawToWithRetry_natCast,
      withdrawGo_first_good specs address value k n 0 ⟨0, [], 0⟩ hk hb0 hg]
  refine ⟨?_, by simp [length_attemptEncodings]⟩
  simp only [Nat.zero_add, hs, attemptEnvelope, attemptSeqno, attemptChainId]

/-- Claim C4 witness: a first attempt with empty chain, a second attempt
with a non-empty all-success chain; the hash of the second attempt is
returned after exactly two submissions. -/
theorem withdrawToWithRetry_returns_first_success_witness :
    (withdrawToWithRetry
        (fun i => if i = 0 then AttemptSpec.completes 3 1 []
                  else AttemptSpec.completes 4 1 [⟨true⟩]) [5] 7 (3 : Int)).fst
        = RetryOutcome.ok ((faucetEnvelope [5] 7 4 1).hash)
    ∧ (withdrawToWithRetry
        (fun i => if i = 0 then AttemptSpec.completes 3 1 []
                  else AttemptSpec.completes 4 1 [⟨true⟩]) [5] 7
        (3 : Int)).snd.submissions.length = 1 + 1 :=
  withdrawToWithRetry_returns_first_success
    (fun i => if i = 0 then AttemptSpec.completes 3 1 []
              else AttemptSpec.completes 4 1 [⟨true⟩]) [5] 7 3 1 4 1 [⟨true⟩]
    (by decide)
    (by intro j hj; interval_cases j; exact ⟨rfl, rfl⟩)
    rfl (by simp) rfl

/-- Claim C5: in a run in which every attempt times out with an empty
receipt chain, each attempt submits the encoding of the envelope built
from its own freshly fetched seqno and chainId (one fetch per attempt),
and two attempts whose fetched seqnos differ as 64-bit values never
submit identical bytes, so a retried attempt does not resubmit the
previous encoded envelope once its seqno moved on. -/
theorem withdrawToWithRetry_fresh_seqno_per_attempt (specs : Nat → AttemptSpec)
    (address : List Nat) (value n : Nat) (s c : Nat → Nat)
    (hspec : ∀ i, i < n → specs i = AttemptSpec.completes (s i) (c i) []) :
    (withdrawToWithRetry specs address value (n : Int)).snd.submissions
        = (List.range n).map (fun i => (faucetEnvelope address value (s i) (c i)).encode)
    ∧ (withdrawToWithRetry specs address value (n : Int)).snd.fetches = n
    ∧ ∀ i j, i < n → j < n → s i % 2 ^ 64 ≠ s j % 2 ^ 64 →
        (faucetEnvelope address value (s i) (c i)).encode
          ≠ (faucetEnvelope address value (s j) (c j)).encode := by
  have hb0 : ∀ i, i < n →
      isCompletes (specs (0 + i)) = true ∧ attemptGood (specs (0 + i)) = false := by
    intro i hi
    rw [Nat.zero_add, hspec i hi]
    exact ⟨rfl, rfl⟩
  rw [withdrawToWithRetry_natCast,
      withdrawGo_all_failing specs address value n 0 ⟨0, [], 0⟩ hb0]
  refine ⟨?_, by simp, ?_⟩
  · show [] ++ attemptEncodings specs address value 0 n = _
    rw [List.nil_append, attemptEncodings_eq_map]
    apply List.map_congr_left
    intro a ha
    rw [Nat.zero_add, hspec a (List.mem_range.mp ha)]
    rfl
  · intro i j hi hj hne heq
    apply hne
    have hdec := congrArg decodeSeqno heq
    rw [decodeSeqno_encode, decodeSeqno_encode] at hdec
    exact hdec

/-- Claim C5 witness: the theorem applied with two attempts fetching
seqnos 0 and 1. -/
theorem withdrawToWithRetry_fresh_seqno_witness :
    (withdrawToWithRetry (fun i => AttemptSpec.completes i 0 []) [5] 7
        (2 : Int)).snd.fetches = 2 :=
  (withdrawToWithRetry_fresh_seqno_per_attempt
    (fun i => AttemptSpec.completes i 0 []) [5] 7 2 (fun i => i) (fun _ => 0)
    (fun i _ => rfl)).2.1

/-- Claim C6: when an attempt raises an underlying transport or RPC error,
the loop records one backoff sleep and retries with the next attempt,
except when the erroring attempt was the last one the budget permits, in
which case that error itself propagates to the caller. -/
theorem withdrawToWithRetry_transport_error_policy (specs : Nat → AttemptSpec)
    (address : List Nat) (value cur fuel : Nat) (tr : FaucetTrace) (e : Nat)
    (h : attemptErr (specs cur) = some e) :
    (withdrawGo specs address value cur 1 tr).fst = RetryOutcome.thrown e
    ∧ (0 < fuel → ∃ tr1 : FaucetTrace,
        withdrawGo specs address value cur (fuel + 1) tr
            = withdrawGo specs address value (cur + 1) fuel tr1
        ∧ tr1.sleeps = tr.sleeps + 1) := by
  cases hs : specs cur with
  | completes s c rs =>
    rw [hs] at h
    exact absurd h (by simp [attemptErr])
  | fetchErr e0 =>
    rw [hs] at h
    have he : e0 = e := by simpa [attemptErr] using h
    subst he
    constructor
    · show (withdrawGo specs address value cur (0 + 1) tr).fst = RetryOutcome.thrown e0
      rw [withdrawGo_fetchErr specs address value cur 0 tr e0 hs]
      rfl
    · intro hf
      obtain ⟨f0, rfl⟩ : ∃ f, fuel = f + 1 := ⟨fuel - 1, by omega⟩
      refine ⟨⟨tr.fetches + 1, tr.submissions, tr.sleeps + 1⟩, ?_, rfl⟩
      rw [withdrawGo_fetchErr specs address value cur (f0 + 1) tr e0 hs]
      simp
  | submitErr s0 c0 e0 =>
    rw [hs] at h
    have he : e0 = e := by simpa [attemptErr] using h
    subst he
    constructor
    · show (withdrawGo specs address value cur (0 + 1) tr).fst = RetryOutcome.thrown e0
      rw [withdrawGo_submitErr specs address value cur 0 tr s0 c0 e0 hs]
      rfl
    · intro hf
      obtain ⟨f0, rfl⟩ : ∃ f, fuel = f + 1 := ⟨fuel - 1, by omega⟩
      refine ⟨⟨tr.fetches + 1,
        tr.submissions ++ [(faucetEnvelope address value s0 c0).encode],
        tr.sleeps + 1⟩, ?_, rfl⟩
      rw [withdrawGo_submitErr specs address value cur (f0 + 1) tr s0 c0 e0 hs]
      simp
  | waitErr s0 c0 e0 =>
    rw [hs] at h
    have he : e0 = e := by simpa [attemptErr] using h
    subst he
    constructor
    · show (withdrawGo specs address value cur (0 + 1) tr).fst = RetryOutcome.thrown e0
      rw [withdrawGo_waitErr specs address value cur 0 tr s0 c0 e0 hs]
      rfl
    · intro hf
      obtain ⟨f0, rfl⟩ : ∃ f, fuel = f + 1 := ⟨fuel - 1, by omega⟩
      refine ⟨⟨tr.fetches + 1,
        tr.submissions ++ [(faucetEnvelope address value s0 c0).encode],
        tr.sleeps + 1⟩, ?_, rfl⟩
      rw [withdrawGo_waitErr specs address value cur (f0 + 1) tr s0 c0 e0 hs]
      simp

/-- Claim C6 witness: an attempt erroring with budget left continues after
one backoff sleep, and the same erroring attempt as the last permitted
one propagates error 3. -/
theorem withdrawToWithRetry_transport_error_witness :
    (withdrawGo (fun _ => AttemptSpec.fetchErr 3) [6] 9 0 1 ⟨0, [], 0⟩).fst
        = RetryOutcome.thrown 3
    ∧ (0 < 1 → ∃ tr1 : FaucetTrace,
        withdrawGo (fun _ => AttemptSpec.fetchErr 3) [6] 9 0 (1 + 1) ⟨0, [], 0⟩
            = withdrawGo (fun _ => AttemptSpec.fetchErr 3) [6] 9 1 1 tr1
        ∧ tr1.sleeps = (⟨0, [], 0⟩ : FaucetTrace).sleeps + 1) :=
  withdrawToWithRetry_transport_error_policy
    (fun _ => AttemptSpec.fetchErr 3) [6] 9 0 1 ⟨0, [], 0⟩ 3 rfl

/-- Claim C8: for every nonpositive retry budget, the loop guard fails at
once, so withdrawToWithRetry performs no fetch, no submission and no
sleep, the result does not depend on the outside world at all, and the
generic failed-to-withdraw error is thrown immediately. -/
theorem withdrawToWithRetry_nonpositive_retry_noop
    (specs specs2 : Nat → AttemptSpec) (address : List Nat) (value : Nat)
    (retry : Int) (h : retry ≤ 0) :
    withdrawToWithRetry specs address value retry
        = (RetryOutcome.exhaustedGeneric, ⟨0, [], 0⟩)
    ∧ withdrawToWithRetry specs address value retry
        = withdrawToWithRetry specs2 address value retry := by
  have ht : retry.toNat = 0 := Int.toNat_of_nonpos h
  unfold withdrawToWithRetry
  rw [ht]
  exact ⟨rfl, rfl⟩

/-- Claim C8 witness: the theorem applied at retry budget minus two. -/
theorem withdrawToWithRetry_nonpositive_retry_noop_witness :
    withdrawToWithRetry (fun _ => AttemptSpec.fetchErr 1) [5] 7 (-2)
        = (RetryOutcome.exhaustedGeneric, ⟨0, [], 0⟩)
    ∧ withdrawToWithRetry (fun _ => AttemptSpec.fetchErr 1) [5] 7 (-2)
        = withdrawToWithRetry (fun _ => AttemptSpec.completes 0 0 []) [5] 7 (-2) :=
  withdrawToWithRetry_nonpositive_retry_noop
    (fun _ => AttemptSpec.fetchErr 1) (fun _ => AttemptSpec.completes 0 0 [])
    [5] 7 (-2) (by decide)

/-- The error the wallet constructor raises on bad configuration. -/
inductive WalletError where
  | configurationError
deriving DecidableEq, Repr

/-- The optional constructor inputs of WalletV1, besides the client and
signer handles which play no role in the checks. -/
structure WalletConfig where
  pubkey : Option (List Nat)
  shardId : Option Nat
  salt : Option Nat
  address : Option (List Nat)
deriving DecidableEq, Repr

/-- Modelled from the spec: the default salt used when none is supplied,
a fixed constant documented in the address model. -/
def defaultSalt : Nat := 0

/-- Modelled from the spec: the WalletV1 constructor contract exactly as
the spec words it, for comparison with the behaviour the src tests pin
down; it fails when neither an address nor pubkey plus shardId is
supplied, and fails when an explicit address and an explicit salt are
given together with shardId and pubkey deriving an address different
from the explicit one; otherwise it succeeds with the explicit address
winning. -/
def walletV1NewSpec (digest : List Nat → List Nat) (cfg : WalletConfig) :
    Except WalletError (List Nat) :=
  match cfg.address with
  | some addr =>
    match cfg.salt, cfg.pubkey, cfg.shardId with
    | some salt, some pk, some sh =>
      if calculateWalletAddress digest pk sh salt = addr then Except.ok addr
      else Except.error WalletError.configurationError
    | _, _, _ => Except.ok addr
  | none =>
    match cfg.pubkey, cfg.shardId with
    | some pk, some sh =>
      Except.ok (calculateWalletAddress digest pk sh (cfg.salt.getD defaultSalt))
    | _, _ => Except.error WalletError.configurationError

/-- Modelled from the spec: the WalletV1 constructor is absent from src and
is modelled from the constructor contract of the spec, amended where the
src tests contradict it: the test at src/unnamed/part_000 lines 23 to 38
passes an explicit address computed from the very same pubkey, shardId
and salt it also passes, and expects the constructor to throw, so the
constructor rejects every configuration carrying both an explicit
address and an explicit salt, whether or not they agree; with no address
it derives one from pubkey and shardId with the salt defaulting, and
with neither it fails. -/
def walletV1New (digest : List Nat → List Nat) (cfg : WalletConfig) :
    Except WalletError (List Nat) :=
  match cfg.address with
  | some addr =>
    if cfg.salt.isSome then Except.error WalletError.configurationError
    else Except.ok addr
  | none =>
    match cfg.pubkey, cfg.shardId with
    | some pk, some sh =>
      Except.ok (calculateWalletAddress digest pk sh (cfg.salt.getD defaultSalt))
    | _, _ => Except.error WalletError.configurationError

/-- Whether a fallible computation succeeded. -/
def isOkE {ε α : Type} : Except ε α → Bool
  | Except.ok _ => true
  | Except.error _ => false

/-- Claim C7 counterexample: the configuration of the src test at
src/unnamed/part_000 lines 23 to 38, whose explicit address equals the
address derivable from its pubkey, shardId and salt, so per the claim
construction should succeed; yet the constructor pinned down by that
test rejects it, while the spec-worded contract accepts it. -/
theorem walletV1_rejects_matching_address_and_salt :
    walletV1NewSpec (fun _ => List.replicate 18 7)
        ⟨some [1], some 1, some 100,
         some (calculateWalletAddress (fun _ => List.replicate 18 7) [1] 1 100)⟩
        = Except.ok (calculateWalletAddress (fun _ => List.replicate 18 7) [1] 1 100)
    ∧ walletV1New (fun _ => List.replicate 18 7)
        ⟨some [1], some 1, some 100,
         some (calculateWalletAddress (fun _ => List.replicate 18 7) [1] 1 100)⟩
        = Except.error WalletError.configurationError := by
  constructor
  · rfl
  · rfl

/-- Claim C7 (amended): the constructor fails with the configuration error
when neither an explicit address nor pubkey plus shardId is supplied,
and fails whenever both an explicit address and an explicit salt are
supplied, even when the derivable address equals the explicit one; in
all other cases construction succeeds. -/
theorem walletV1_constructor_characterization (digest : List Nat → List Nat)
    (cfg : WalletConfig) :
    isOkE (walletV1New digest cfg)
      = ((cfg.address.isSome && !cfg.salt.isSome)
         || (!cfg.address.isSome && cfg.pubkey.isSome && cfg.shardId.isSome)) := by
  rcases cfg with ⟨p, sh, sa, ad⟩
  cases ad <;> cases sa <;> cases p <;> cases sh <;> rfl

/-- The RPC methods the modelled client operations can issue. -/
inductive RpcMethod where
  | ethGetBlockByHash
  | ethGetBlockByNumber
deriving DecidableEq, Repr

/-- A request sent through the transport: a method and its encoded
parameters. -/
structure RpcRequest where
  method : RpcMethod
  params : List Nat
deriving DecidableEq, Repr

/-- The identifier carried by a block-not-found error: the hash or the
number that was requested. -/
inductive BlockId where
  | byHash (h : List Nat)
  | byNumber (n : Nat)
deriving DecidableEq, Repr

/-- Errors surfaced by the modelled client operations. -/
inductive ClientError where
  | blockNotFound (blockNumberOrHash : BlockId) (cause : Nat)
  | invalidShardId
deriving DecidableEq, Repr

/-- The request getBlockByHash issues. -/
def getBlockByHashRequest (shardId : Nat) (hash : List Nat) (fullTx : Bool) :
    RpcRequest :=
  ⟨RpcMethod.ethGetBlockByHash, shardId :: boolByte fullTx :: hash⟩

/-- The request getBlockByNumber issues. -/
def getBlockByNumberRequest (shardId blockNumber : Nat) (fullTx : Bool) :
    RpcRequest :=
  ⟨RpcMethod.ethGetBlockByNumber, [shardId, blockNumber, boolByte fullTx]⟩

/-- PublicClient.getBlockByHash from src/src/clients/PublicClient.ts lines
64 to 82: asserts the shard id is valid, issues the request through the
transport oracle, returns a successful response, and rethrows any
request failure whatsoever as the block-not-found error carrying the
requested hash and the original error as cause. Responses are opaque
bytes and transport errors are numbered. -/
def PublicClient.getBlockByHash (oracle : RpcRequest → Except Nat (List Nat))
    (hash : List Nat) (fullTx : Bool) (shardId : Nat) :
    Except ClientError (List Nat) :=
  if assertIsValidShardId shardId then
    match oracle (getBlockByHashRequest shardId hash fullTx) with
    | Except.ok b => Except.ok b
    | Except.error e =>
      Except.error (ClientError.blockNotFound (BlockId.byHash hash) e)
  else Except.error ClientError.invalidShardId

/-- PublicClient.getBlockByNumber from src/src/clients/PublicClient.ts
lines 99 to 117, the same shape keyed by block number. -/
def PublicClient.getBlockByNumber (oracle : RpcRequest → Except Nat (List Nat))
    (blockNumber : Nat) (fullTx : Bool) (shardId : Nat) :
    Except ClientError (List Nat) :=
  if assertIsValidShardId shardId then
    match oracle (getBlockByNumberRequest shardId blockNumber fullTx) with
    | Except.ok b => Except.ok b
    | Except.error e =>
      Except.error (ClientError.blockNotFound (BlockId.byNumber blockNumber) e)
  else Except.error ClientError.invalidShardId

/-- PublicClient.getGasPrice from src/src/clients/PublicClient.ts lines
345 to 349: returns the stub constant one and issues no request; the
second component lists the requests issued, which is none. -/
def PublicClient.getGasPrice (oracle : RpcRequest → Except Nat (List Nat)) :
    Except Nat Nat × List RpcRequest :=
  (Except.ok 1, [])

/-- PublicClient.estimateGasLimit from src/src/clients/PublicClient.ts
lines 355 to 359: returns the stub constant 1000000 and issues no
request. -/
def PublicClient.estimateGasLimit (oracle : RpcRequest → Except Nat (List Nat)) :
    Except Nat Nat × List RpcRequest :=
  (Except.ok 1000000, [])

/-- Claim C9: for every transport oracle, so for every client
configuration and network state, getGasPrice returns the constant one
and estimateGasLimit returns the constant 1000000, and neither issues
any RPC request. -/
theorem gas_price_and_limit_are_stub_constants
    (oracle : RpcRequest → Except Nat (List Nat)) :
    PublicClient.getGasPrice oracle = (Except.ok 1, [])
    ∧ PublicClient.estimateGasLimit oracle = (Except.ok 1000000, []) :=
  ⟨rfl, rfl⟩

/-- Claim C10: whenever the underlying request fails, for any transport
error whatsoever, getBlockByHash and getBlockByNumber raise the
block-not-found error carrying the requested block identifier and the
original error as cause. -/
theorem getBlock_failures_reported_as_blockNotFound
    (oracle : RpcRequest → Except Nat (List Nat)) (hash : List Nat)
    (blockNumber shardId e1 e2 : Nat) (fullTx : Bool)
    (hv : assertIsValidShardId shardId = true)
    (h1 : oracle (getBlockByHashRequest shardId hash fullTx) = Except.error e1)
    (h2 : oracle (getBlockByNumberRequest shardId blockNumber fullTx) = Except.error e2) :
    PublicClient.getBlockByHash oracle hash fullTx shardId
        = Except.error (ClientError.blockNotFound (BlockId.byHash hash) e1)
    ∧ PublicClient.getBlockByNumber oracle blockNumber fullTx shardId
        = Except.error (ClientError.blockNotFound (BlockId.byNumber blockNumber) e2) := by
  constructor
  · simp [PublicClient.getBlockByHash, hv, h1]
  · simp [PublicClient.getBlockByNumber, hv, h2]

/-- Claim C10 witness: the theorem applied to a transport that always
fails with error 42 on shard 1. -/
theorem getBlock_failures_witness :
    PublicClient.getBlockByHash (fun _ => Except.error 42) [9] false 1
        = Except.error (ClientError.blockNotFound (BlockId.byHash [9]) 42)
    ∧ PublicClient.getBlockByNumber (fun _ => Except.error 42) 3 false 1
        = Except.error (ClientError.blockNotFound (BlockId.byNumber 3) 42) :=
  getBlock_failures_reported_as_blockNotFound
    (fun _ => Except.error 42) [9] 3 1 42 42 false rfl rfl rfl

end NilJs
